import Mathlib

/-!
Verification of the download-orchestration core of the DL-Source-Gdrive
repository (Google Drive audio downloader).

The Python sources are shallowly embedded as Lean definitions:
strings are `List Char`, the local filesystem is a map from paths to
file sizes, and the remote store / clock are supplied as explicit
oracle inputs, with every network or filesystem side effect recorded
in the returned result structure.  Exceptions raised and caught in the
Python code are modelled as `Except` values / error branches.
-/

set_option autoImplicit false

namespace DlSrcGdrive

/-- Strings are modelled as lists of characters. -/
abbrev Str := List Char

/-! ### `utils/path_utils.py` : `sanitize_filename` -/

/-- The characters replaced by `sanitize_filename`
(the literal <>:"/\|?* held in the local variable of `path_utils.py`). -/
def illegal_chars : Str := ['<', '>', ':', '"', '/', '\\', '|', '?', '*']

/-- One step of the replacement loop: `sanitized.replace(char, '_')`
for a single-character pattern. -/
def replaceChar (c r : Char) (s : Str) : Str :=
  s.map (fun x => if x = c then r else x)

/-- The replacement loop of `sanitize_filename`:
each character of `illegal_chars` is replaced by an underscore in turn. -/
def replaceIllegal (s : Str) : Str :=
  illegal_chars.foldl (fun acc c => replaceChar c '_' acc) s

/-- Python `str.strip(chars)`: remove the characters of `cs` from both
ends of `s`. -/
def stripChars (cs : Str) (s : Str) : Str :=
  ((s.dropWhile (fun c => cs.contains c)).reverse.dropWhile
      (fun c => cs.contains c)).reverse

/-- Python `str.rfind(c)` restricted to a single-character needle:
highest index of `c` in `s`, `-1` when absent.  (Structured recursion:
an occurrence in the tail wins over one at the head.) -/
def rfindAux (s : Str) (c : Char) : Option Nat :=
  match s with
  | [] => none
  | a :: t =>
    match rfindAux t c with
    | some i => some (i + 1)
    | none => if a = c then some 0 else none

/-- Python `str.rfind(c)` returning `-1` when the character is absent. -/
def rfindI (s : Str) (c : Char) : Int :=
  match rfindAux s c with
  | some i => (i : Int)
  | none => -1

/-- CPython `posixpath.splitext` (`os.path.splitext` on POSIX), as used
by `sanitize_filename`: split at the last `.` that lies after the last
`/` and is preceded by at least one non-dot character. -/
def splitext (p : Str) : Str × Str :=
  let sepIndex := rfindI p '/'
  let dotIndex := rfindI p '.'
  if sepIndex < dotIndex then
    if ((p.drop (sepIndex + 1).toNat).take (dotIndex - sepIndex - 1).toNat).all
        (fun c => c = '.') then
      (p, [])
    else
      (p.take dotIndex.toNat, p.drop dotIndex.toNat)
  else (p, [])

/-- Python slicing `s[:stop]` with a possibly negative `stop`. -/
def pySlice (s : Str) (stop : Int) : Str :=
  if 0 ≤ stop then s.take stop.toNat
  else s.take (s.length - stop.natAbs)

/-- The fallback literal `unnamed_file`. -/
def unnamed_file : Str :=
  ['u', 'n', 'n', 'a', 'm', 'e', 'd', '_', 'f', 'i', 'l', 'e']

/-- `sanitize_filename` up to (and including) the empty-name fallback:
replace the unsafe characters by `_`, strip leading/trailing spaces
and dots, and substitute the `unnamed_file` fallback for an empty result. -/
def sanitizeBase (filename : Str) : Str :=
  let stripped := stripChars [' ', '.'] (replaceIllegal filename)
  if stripped = [] then unnamed_file else stripped

/-- `sanitize_filename` from `utils/path_utils.py`: sanitize and then
limit the length to 255, keeping the `splitext` extension when one is
present (`name[:255 - len(ext)] + ext`, with Python slice semantics
for a negative bound). -/
def sanitize_filename (filename : Str) : Str :=
  let sanitized := sanitizeBase filename
  if 255 < sanitized.length then
    if (splitext sanitized).2 ≠ [] then
      pySlice (splitext sanitized).1 (255 - ((splitext sanitized).2.length : Int))
        ++ (splitext sanitized).2
    else
      sanitized.take 255
  else sanitized

/-! ### `pathlib` : `Path(name).suffix`, as used by `filter_audio_files` -/

/-- The final component of a POSIX path as computed by
`pathlib.PurePosixPath(s).name`: split on `/`, drop empty and `'.'`
components, take the last one (empty when none remain). -/
def posixName (s : Str) : Str :=
  ((s.splitOn '/').filter
      (fun comp => !comp.isEmpty && !(comp == ['.']))).getLastD []

/-- The suffix computation of `pathlib.PurePath.suffix` (CPython) on an
already-extracted final component `nm`:
`i = nm.rfind('.'); nm[i:] if 0 < i < len(nm) - 1 else ''`. -/
def suffixOfName (nm : Str) : Str :=
  let i := rfindI nm '.'
  if 0 < i ∧ i < (nm.length : Int) - 1 then nm.drop i.toNat else []

/-- `pathlib.PurePath(s).suffix` (CPython): the substring of the final
component from its last `.`, provided that dot is neither the first
nor the last character of the component; empty otherwise. -/
def pathSuffix (s : Str) : Str := suffixOfName (posixName s)

/-- Python `str.lower()` restricted to ASCII letters (the allowed
extensions and the suffixes compared against them are ASCII). -/
def lowerStr (s : Str) : Str := s.map Char.toLower

/-! ### Data model (`dl_gdrive_core/dl_src_gdrive.py`) -/

/-- A remote file-metadata record as returned by the listing.  Only
the fields the core logic reads are kept: `id` (always present in an
API response) and the optional `name` (read with a defaulted `file.get`
by the filter).  `mimeType`/`size`/timestamps of the listing records
are never consulted by the code and are omitted. -/
structure FileRec where
  id : Str
  name : Option Str
deriving DecidableEq, Repr

/-- A parsed creation timestamp (the result of
`datetime.fromisoformat(created_time.replace('Z', '+00:00'))`).
The ISO-8601 text format itself is external input; the embedding
models a successfully parsed timestamp by its calendar fields. -/
structure Date6 where
  year : Nat
  month : Nat
  day : Nat
  hour : Nat
  minute : Nat
  second : Nat
deriving DecidableEq, Repr

/-- Decimal digits of `n`, zero-padded on the left to `width`
(as in `strftime` field formatting). -/
def padNum (width n : Nat) : Str :=
  let ds := Nat.toDigits 10 n
  List.replicate (width - ds.length) '0' ++ ds

/-- The strftime format `%Y-%m-%d_%H%M%S` applied to a parsed timestamp. -/
def formatBucket (d : Date6) : Str :=
  padNum 4 d.year ++ '-' :: (padNum 2 d.month ++ '-' ::
    (padNum 2 d.day ++ '_' ::
      (padNum 2 d.hour ++ padNum 2 d.minute ++ padNum 2 d.second)))

/-- Metadata returned by `service.files().get(fileId=...)`:
`createdTime` is `none` when the field is absent or unparsable (both
cases fall back to the current wall-clock time in the code), and
`size` models the integer value of the size field, defaulted to 0. -/
structure Meta where
  createdTime : Option Date6
  size : Nat

/-- The local filesystem, as far as the downloader observes it: a map
from file paths to file sizes (directories are created on demand and
never consulted otherwise). -/
abbrev FS := Str → Option Nat

/-- Writing a file of `n` bytes at path `p`. -/
def setFile (fs : FS) (p : Str) (n : Nat) : FS :=
  fun q => if q = p then some n else fs q

/-- `Path.unlink()` at path `p`. -/
def removeFile (fs : FS) (p : Str) : FS :=
  fun q => if q = p then none else fs q

/-- The per-call external environment of `download_file`: the outcome
of the metadata fetch, of the chunked media download (`.error k` means
an exception was raised after `k` bytes had been written, `.ok n`
means the stream completed with `n` bytes), whether `ensure_directory`
(and opening the sink) succeeds, the result of a remote delete, and
the wall-clock fallback bucket. -/
structure Oracle where
  metadata : Except Str Meta
  media : Except Nat Nat
  ensureDirOk : Bool
  deleteOk : Bool
  nowBucket : Str

/-- The observable result of one `download_file` call: the returned
boolean, whether the early file-exists branch fired, which remote
calls were made, and the filesystem afterwards. -/
structure DLResult where
  ok : Bool
  skipped : Bool
  metadataFetched : Bool
  mediaRead : Bool
  deleteInvoked : Bool
  fs : FS

/-- The `formatted_date` bucket computed by `download_file`: the
formatted `createdTime` when the metadata fetch succeeds and the
timestamp is present and parsable; the current wall-clock time
otherwise. -/
def destBucket (o : Oracle) : Str :=
  match o.metadata with
  | .ok m =>
    match m.createdTime with
    | some d => formatBucket d
    | none => o.nowBucket
  | .error _ => o.nowBucket

/-- `self.download_dir / f"{formatted_date}_{file_id}"` as a function
of the bucket text. -/
def dirName (download_dir bucket file_id : Str) : Str :=
  download_dir ++ '/' :: (bucket ++ '_' :: file_id)

/-- The full destination file path `date_prefixed_dir / safe_filename`
computed by `download_file`. -/
def file_path_of (download_dir : Str) (o : Oracle) (file_id file_name : Str) : Str :=
  dirName download_dir (destBucket o) file_id ++ '/' :: sanitize_filename file_name

/-- `GoogleDriveDownloader.download_file`.  Mirrors the source flow:
no-service guard; metadata fetch (before anything else — its failure
only matters later); destination-path computation; early-exists skip;
`ensure_directory` (an `OSError` from it, or from opening the sink, is
caught by the outer `except` and yields `False` with no file written);
the `NameError` on `file_metadata` when the metadata fetch had failed;
the chunked stream copy (an exception leaves the partial file in
place); verification `exists() and st_size > 0`; on success the
optional best-effort remote delete; on a zero-size file, unlink and
`False`. -/
def download_file (service delete_from_src : Bool) (download_dir : Str)
    (o : Oracle) (fs : FS) (file_id file_name : Str) : DLResult :=
  if service = false then ⟨false, false, false, false, false, fs⟩
  else
    let file_path := file_path_of download_dir o file_id file_name
    if (fs file_path).isSome then ⟨true, true, true, false, false, fs⟩
    else if o.ensureDirOk = false then ⟨false, false, true, false, false, fs⟩
    else
      match o.metadata with
      | .error _ => ⟨false, false, true, false, false, fs⟩
      | .ok _ =>
        match o.media with
        | .error partBytes =>
          ⟨false, false, true, true, false, setFile fs file_path partBytes⟩
        | .ok totalBytes =>
          if 0 < totalBytes then
            ⟨true, false, true, true, delete_from_src, setFile fs file_path totalBytes⟩
          else
            ⟨false, false, true, true, false,
              removeFile (setFile fs file_path totalBytes) file_path⟩

/-- The observable result of `delete_file_from_gdrive`: the returned
boolean and whether the remote API was contacted. -/
structure DelResult where
  ok : Bool
  apiCalled : Bool
deriving DecidableEq, Repr

/-- `GoogleDriveDownloader.delete_file_from_gdrive`: no-service guard,
then one `files().delete` call whose failure yields `False`. -/
def delete_file_from_gdrive (service deleteOk : Bool) : DelResult :=
  if service = false then ⟨false, false⟩ else ⟨deleteOk, true⟩

/-- One iteration of the folder loop in `list_files_in_folders`:
on a successful query, `all_files.extend(files)`; on a caught
`HttpError`/`Exception`, `continue`.  The second component records the
folders queried so far. -/
def listStep (acc : List FileRec × List Str)
    (fr : Str × Except Str (List FileRec)) : List FileRec × List Str :=
  match fr.2 with
  | .ok files => (acc.1 ++ files, acc.2 ++ [fr.1])
  | .error _ => (acc.1, acc.2 ++ [fr.1])

/-- `GoogleDriveDownloader.list_files_in_folders`.  Each configured
folder is given together with its query outcome (`.error` = the
`HttpError`/`Exception` caught for that folder).  Returns the
accumulated records and the list of folders actually queried. -/
def list_files_in_folders (service : Bool)
    (folders : List (Str × Except Str (List FileRec))) :
    List FileRec × List Str :=
  if service = false then ([], [])
  else folders.foldl listStep ([], [])

/-- `GoogleDriveDownloader.filter_audio_files`: keep the records whose
lower-cased `pathlib` suffix of the (defaulted) name is among the configured
extensions. -/
def filter_audio_files (files : List FileRec) (allowed_extensions : List Str) :
    List FileRec :=
  files.filter
    (fun f => allowed_extensions.contains (lowerStr (pathSuffix (f.name.getD []))))

/-- The download loop of `download_all_audio_files`: one
`download_file` per record (oracle keyed by the record id), counting
`True` results. -/
def dlLoop (service delete_from_src : Bool) (download_dir : Str)
    (oracles : Str → Oracle) :
    List FileRec → Nat → FS → Nat × FS
  | [], succ, fs => (succ, fs)
  | f :: rest, succ, fs =>
    let r := download_file service delete_from_src download_dir
      (oracles f.id) fs f.id (f.name.getD [])
    dlLoop service delete_from_src download_dir oracles rest
      (if r.ok then succ + 1 else succ) r.fs

/-- `GoogleDriveDownloader.download_all_audio_files`: list, early
return on an empty listing, filter, early return on an empty filtered
set, then the download loop; returns
`(successful_downloads, total_files, final filesystem)`. -/
def download_all_audio_files (service delete_from_src : Bool)
    (download_dir : Str) (allowed_extensions : List Str)
    (folders : List (Str × Except Str (List FileRec)))
    (oracles : Str → Oracle) (fs : FS) : Nat × Nat × FS :=
  let all_files := (list_files_in_folders service folders).1
  if all_files.isEmpty then (0, 0, fs)
  else
    let audio_files := filter_audio_files all_files allowed_extensions
    if audio_files.isEmpty then (0, 0, fs)
    else
      let p := dlLoop service delete_from_src download_dir oracles audio_files 0 fs
      (p.1, audio_files.length, p.2)

/-- `main` from `main.py`, from downloader construction onwards:
construction failure (non-absolute download dir) or authentication
failure exit with 1 before any download; otherwise the batch runs,
then — when `--cleanup` was passed — `cleanup_credentials()` runs
inside the same `try` (an exception from it is caught by the outer
`except` and exits 1); finally `0 if successful == total else 1`. -/
def mainResult (initOk authOk args_cleanup cleanupOk delete_from_src : Bool)
    (download_dir : Str) (allowed_extensions : List Str)
    (folders : List (Str × Except Str (List FileRec)))
    (oracles : Str → Oracle) (fs : FS) : Nat :=
  if initOk = false then 1
  else if authOk = false then 1
  else
    let r := download_all_audio_files true delete_from_src download_dir
      allowed_extensions folders oracles fs
    if args_cleanup && !cleanupOk then 1
    else if r.1 = r.2.1 then 0 else 1

/-! ### Lemmas about the sanitizer -/

theorem mem_of_replaceChar {x c r : Char} {s : Str} (h : x ∈ replaceChar c r s) :
    x ∈ s ∨ x = r := by
  rcases List.mem_map.mp h with ⟨a, ha, hax⟩
  by_cases hac : a = c
  · right
    rw [← hax]
    simp [hac]
  · left
    have hxa : x = a := by
      rw [← hax]
      simp [hac]
    rwa [hxa]

theorem not_mem_replaceChar {x c r : Char} {s : Str} (hx : x ∉ s ∨ x = c)
    (hxr : x ≠ r) : x ∉ replaceChar c r s := by
  intro hmem
  rcases List.mem_map.mp hmem with ⟨a, ha, hax⟩
  by_cases hac : a = c
  · apply hxr
    rw [← hax]
    simp [hac]
  · have hxa : x = a := by
      rw [← hax]
      simp [hac]
    subst hxa
    rcases hx with h | h
    · exact h ha
    · exact hac h

theorem not_mem_foldl_replace {x r : Char} (cs : Str) {s : Str} (hx : x ∉ s)
    (hxr : x ≠ r) : x ∉ cs.foldl (fun acc c => replaceChar c r acc) s := by
  induction cs generalizing s with
  | nil => exact hx
  | cons c cs ih => exact ih (not_mem_replaceChar (Or.inl hx) hxr)

theorem not_mem_foldl_replace_self {x r : Char} {cs s : Str} (hx : x ∈ cs)
    (hxr : x ≠ r) : x ∉ cs.foldl (fun acc c => replaceChar c r acc) s := by
  induction cs generalizing s with
  | nil => cases hx
  | cons c cs ih =>
    rcases List.mem_cons.mp hx with h | h
    · subst h
      exact not_mem_foldl_replace cs (not_mem_replaceChar (Or.inr rfl) hxr) hxr
    · exact ih h

theorem not_mem_replaceIllegal {x : Char} (s : Str) (hx : x ∈ illegal_chars) :
    x ∉ replaceIllegal s := by
  have hxr : x ≠ '_' := by
    intro h
    subst h
    revert hx
    decide
  exact not_mem_foldl_replace_self hx hxr

theorem mem_of_mem_stripChars {x : Char} {cs s : Str} (h : x ∈ stripChars cs s) :
    x ∈ s := by
  unfold stripChars at h
  rw [List.mem_reverse] at h
  have h1 := (List.dropWhile_sublist _).subset h
  rw [List.mem_reverse] at h1
  exact (List.dropWhile_sublist _).subset h1

theorem splitext_append (p : Str) : (splitext p).1 ++ (splitext p).2 = p := by
  unfold splitext
  dsimp only
  split
  · split
    · simp
    · exact List.take_append_drop _ p
  · simp

theorem sanitizeBase_ne_nil (s : Str) : sanitizeBase s ≠ [] := by
  unfold sanitizeBase
  dsimp only
  split
  · decide
  · next h => exact h

theorem mem_sanitizeBase {x : Char} {s : Str} (h : x ∈ sanitizeBase s) :
    x ∈ replaceIllegal s ∨ x ∈ unnamed_file := by
  unfold sanitizeBase at h
  dsimp only at h
  split at h
  · exact Or.inr h
  · exact Or.inl (mem_of_mem_stripChars h)

theorem mem_sanitize_filename {x : Char} {s : Str} (h : x ∈ sanitize_filename s) :
    x ∈ sanitizeBase s := by
  unfold sanitize_filename at h
  dsimp only at h
  split at h
  · split at h
    · rcases List.mem_append.mp h with h1 | h1
      · have hname : x ∈ (splitext (sanitizeBase s)).1 := by
          unfold pySlice at h1
          split at h1 <;> exact List.mem_of_mem_take h1
        rw [← splitext_append (sanitizeBase s)]
        exact List.mem_append.mpr (Or.inl hname)
      · rw [← splitext_append (sanitizeBase s)]
        exact List.mem_append.mpr (Or.inr h1)
    · exact List.mem_of_mem_take h
  · exact h

theorem sanitize_filename_ne_nil (s : Str) : sanitize_filename s ≠ [] := by
  unfold sanitize_filename
  dsimp only
  split
  · next hlen =>
    split
    · next hext =>
      intro hc
      exact hext (List.append_eq_nil.mp hc).2
    · have hlt : ((sanitizeBase s).take 255).length = 255 := by
        rw [List.length_take]
        omega
      intro hc
      rw [hc] at hlt
      simp at hlt
  · exact sanitizeBase_ne_nil s

theorem sanitize_filename_no_illegal (s : Str) :
    ∀ c ∈ sanitize_filename s, c ∉ illegal_chars := by
  intro c hc hcill
  rcases mem_sanitizeBase (mem_sanitize_filename hc) with h | h
  · exact not_mem_replaceIllegal s hcill h
  · have hun : ∀ x ∈ unnamed_file, x ∉ illegal_chars := by decide
    exact hun c h hcill

theorem sanitize_filename_length_le (s : Str)
    (hext : ((splitext (sanitizeBase s)).2).length ≤ 255) :
    (sanitize_filename s).length ≤ 255 := by
  unfold sanitize_filename
  dsimp only
  split
  · split
    · rw [List.length_append]
      unfold pySlice
      have h0 : (0 : Int) ≤ 255 - ((splitext (sanitizeBase s)).2.length : Int) := by
        omega
      rw [if_pos h0, List.length_take]
      omega
    · rw [List.length_take]
      omega
  · next hlen => omega

theorem sanitize_filename_ext_suffix (s : Str) :
    (splitext (sanitizeBase s)).2 <:+ sanitize_filename s := by
  unfold sanitize_filename
  dsimp only
  split
  · split
    · exact List.suffix_append _ _
    · next hne =>
      have hext : (splitext (sanitizeBase s)).2 = [] := by
        by_contra hc
        exact hne hc
      rw [hext]
      exact List.nil_suffix
  · exact ⟨(splitext (sanitizeBase s)).1, splitext_append (sanitizeBase s)⟩

theorem sanitize_filename_base (s : Str) :
    (sanitize_filename s).take
        ((sanitize_filename s).length - ((splitext (sanitizeBase s)).2).length)
      <+: (splitext (sanitizeBase s)).1 := by
  have hb := splitext_append (sanitizeBase s)
  set N := (splitext (sanitizeBase s)).1 with hN
  set E := (splitext (sanitizeBase s)).2 with hE
  unfold sanitize_filename
  dsimp only
  rw [← hN, ← hE]
  split
  · split
    · rw [show (pySlice N (255 - (E.length : Int)) ++ E).length - E.length
            = (pySlice N (255 - (E.length : Int))).length by
          rw [List.length_append]; omega]
      rw [List.take_left]
      unfold pySlice
      split <;> exact ⟨N.drop _, List.take_append_drop _ N⟩
    · next hne =>
      have hE0 : E = [] := by
        by_contra hc
        exact hne hc
      rw [hE0] at hb ⊢
      rw [List.append_nil] at hb
      simp only [List.length_nil, Nat.sub_zero, List.take_length]
      rw [hb]
      exact ⟨(sanitizeBase s).drop 255, List.take_append_drop 255 (sanitizeBase s)⟩
  · rw [← hb]
    rw [show (N ++ E).length - E.length = N.length by rw [List.length_append]; omega]
    rw [List.take_left]

/-! ### Claim C1 -/

/-- C1 (amended): for every input string, `sanitize_filename` returns a
non-empty string containing none of the characters `< > : " / \ | ? *`,
the extension suffix of the replaced/stripped string (its `splitext`
extension, i.e. the substring from its last `.`) is preserved as a
suffix of the result, the part of the result before that suffix is a
prefix of the base name, and — provided that extension suffix itself is
at most 255 characters long — the result has length at most 255.
(The unconditional 255 bound of the original claim is false: see the
counterexample below, an extension longer than 255 characters survives
truncation whole.) -/
theorem C1_sanitize_filename_totality (s : Str)
    (hext : ((splitext (sanitizeBase s)).2).length ≤ 255) :
    sanitize_filename s ≠ [] ∧
    (∀ c ∈ sanitize_filename s, c ∉ illegal_chars) ∧
    (sanitize_filename s).length ≤ 255 ∧
    (splitext (sanitizeBase s)).2 <:+ sanitize_filename s ∧
    (sanitize_filename s).take
        ((sanitize_filename s).length - ((splitext (sanitizeBase s)).2).length)
      <+: (splitext (sanitizeBase s)).1 :=
  ⟨sanitize_filename_ne_nil s, sanitize_filename_no_illegal s,
    sanitize_filename_length_le s hext, sanitize_filename_ext_suffix s,
    sanitize_filename_base s⟩

/-- A concrete input for the witness: the file name `ab<c.mp3`. -/
def c1good : Str := ['a', 'b', '<', 'c', '.', 'm', 'p', '3']

/-- C1 witness: `C1_sanitize_filename_totality` applied to the concrete
input `ab<c.mp3`, whose extension is 4 characters long. -/
theorem C1_sanitize_filename_totality_witness :
    ((splitext (sanitizeBase c1good)).2).length ≤ 255 ∧
    (sanitize_filename c1good ≠ [] ∧
      (∀ c ∈ sanitize_filename c1good, c ∉ illegal_chars) ∧
      (sanitize_filename c1good).length ≤ 255 ∧
      (splitext (sanitizeBase c1good)).2 <:+ sanitize_filename c1good ∧
      (sanitize_filename c1good).take
          ((sanitize_filename c1good).length
            - ((splitext (sanitizeBase c1good)).2).length)
        <+: (splitext (sanitizeBase c1good)).1) :=
  ⟨by decide, C1_sanitize_filename_totality c1good (by decide)⟩

/-- The input `a.` followed by 256 `x` characters: its `splitext`
extension is 257 characters long. -/
def c1bad : Str := 'a' :: '.' :: List.replicate 256 'x'

set_option maxRecDepth 20000 in
/-- C1 counterexample: on the input `a.xx#...x` (extension of 257
characters), `sanitize_filename` returns a 257-character string, so the
claimed unconditional `≤ 255` length bound is false.  (Python:
`len(sanitize_filename('a.' + 'x'*256)) == 257`.) -/
theorem C1_counterexample : ¬ ((sanitize_filename c1bad).length ≤ 255) := by
  decide

/-! ### Characterization of `download_file` -/

theorem download_file_skip (dfs : Bool) (dir : Str) (o : Oracle) (fs : FS)
    (fid fname : Str) (h : (fs (file_path_of dir o fid fname)).isSome = true) :
    download_file true dfs dir o fs fid fname = ⟨true, true, true, false, false, fs⟩ := by
  unfold download_file
  simp [h]

theorem download_file_success (dfs : Bool) (dir : Str) (o : Oracle) (fs : FS)
    (fid fname : Str) (m : Meta) (n : Nat)
    (hnew : fs (file_path_of dir o fid fname) = none)
    (hdir : o.ensureDirOk = true) (hmeta : o.metadata = Except.ok m)
    (hmedia : o.media = Except.ok n) (hn : 0 < n) :
    download_file true dfs dir o fs fid fname
      = ⟨true, false, true, true, dfs, setFile fs (file_path_of dir o fid fname) n⟩ := by
  unfold download_file
  simp [hnew, hdir, hmeta, hmedia, hn]

theorem download_file_zero (dfs : Bool) (dir : Str) (o : Oracle) (fs : FS)
    (fid fname : Str) (m : Meta)
    (hnew : fs (file_path_of dir o fid fname) = none)
    (hdir : o.ensureDirOk = true) (hmeta : o.metadata = Except.ok m)
    (hmedia : o.media = Except.ok 0) :
    download_file true dfs dir o fs fid fname
      = ⟨false, false, true, true, false,
          removeFile (setFile fs (file_path_of dir o fid fname) 0)
            (file_path_of dir o fid fname)⟩ := by
  unfold download_file
  simp [hnew, hdir, hmeta, hmedia]

theorem download_file_fs_congr (service dfs : Bool) (dir : Str) (o : Oracle)
    (fs : FS) (fid fname : Str) (q : Str)
    (hq : q ≠ file_path_of dir o fid fname) :
    (download_file service dfs dir o fs fid fname).fs q = fs q := by
  cases service with
  | false => rfl
  | true =>
    unfold download_file
    by_cases hex : (fs (file_path_of dir o fid fname)).isSome = true
    · simp [hex]
    · by_cases hdir : o.ensureDirOk = false
      · simp [hex, hdir]
      · cases hmeta : o.metadata with
        | error e => simp [hex, hdir, hmeta]
        | ok m =>
          cases hmedia : o.media with
          | error k => simp [hex, hdir, hmeta, hmedia, setFile, hq]
          | ok n =>
            by_cases hn : 0 < n
            · simp [hex, hdir, hmeta, hmedia, hn, setFile, hq]
            · simp [hex, hdir, hmeta, hmedia, hn, setFile, removeFile, hq]

theorem download_file_delete_guard (service dfs : Bool) (dir : Str) (o : Oracle)
    (fs : FS) (fid fname : Str)
    (h : (download_file service dfs dir o fs fid fname).deleteInvoked = true) :
    ∃ k, 0 < k ∧ (download_file service dfs dir o fs fid fname).fs
        (file_path_of dir o fid fname) = some k := by
  cases service with
  | false => cases h
  | true =>
    by_cases hex : (fs (file_path_of dir o fid fname)).isSome = true
    · rw [download_file_skip dfs dir o fs fid fname hex] at h
      cases h
    · by_cases hdir : o.ensureDirOk = false
      · unfold download_file at h
        simp [hex, hdir] at h
      · cases hmeta : o.metadata with
        | error e =>
          unfold download_file at h
          simp [hex, hdir, hmeta] at h
        | ok m =>
          cases hmedia : o.media with
          | error k =>
            unfold download_file at h
            simp [hex, hdir, hmeta, hmedia] at h
          | ok n =>
            by_cases hn : 0 < n
            · refine ⟨n, hn, ?_⟩
              unfold download_file
              simp [hex, hdir, hmeta, hmedia, hn, setFile]
            · unfold download_file at h
              simp [hex, hdir, hmeta, hmedia, hn] at h

theorem file_path_of_congr (dir : Str) {o o2 : Oracle} (fid fname : Str)
    (h : destBucket o2 = destBucket o) :
    file_path_of dir o2 fid fname = file_path_of dir o fid fname := by
  unfold file_path_of dirName
  rw [h]

/-! ### Claim C2 -/

/-- The second of two consecutive `download_file` calls on the same
record and download root (the second call with its own oracle and
delete flag). -/
def secondCall (dfs dfs2 : Bool) (dir : Str) (o o2 : Oracle) (fs : FS)
    (fid fname : Str) : DLResult :=
  download_file true dfs2 dir o2
    (download_file true dfs dir o fs fid fname).fs fid fname

/-- C2 (amended): calling `download_file` a second time on the same
record with the same download root, when the second call computes the
same date bucket and the destination file exists after the first call
(any size), returns `True` through the early skip branch, leaves the
filesystem unchanged (hence, across both calls, at most the single
destination path was touched — exactly one on-disk file), performs no
media-stream read and triggers no deletion at the source on that call.
The original claim text of `performs no network read` is too strong: the
metadata lookup (`files().get`) runs before the existence check, so the
skip path still performs one metadata network request (the
`metadataFetched` field of the result record is `true`); see the
counterexample. -/
theorem C2_transfer_idempotent (dfs dfs2 : Bool) (dir : Str) (o o2 : Oracle)
    (fs : FS) (fid fname : Str)
    (hbucket : destBucket o2 = destBucket o)
    (hexists : ((download_file true dfs dir o fs fid fname).fs
        (file_path_of dir o fid fname)).isSome = true) :
    secondCall dfs dfs2 dir o o2 fs fid fname
        = ⟨true, true, true, false, false,
            (download_file true dfs dir o fs fid fname).fs⟩ ∧
    (∀ q, q ≠ file_path_of dir o fid fname →
      (secondCall dfs dfs2 dir o o2 fs fid fname).fs q = fs q) := by
  have hpath := file_path_of_congr dir fid fname hbucket
  have hskip : secondCall dfs dfs2 dir o o2 fs fid fname
      = ⟨true, true, true, false, false,
          (download_file true dfs dir o fs fid fname).fs⟩ := by
    unfold secondCall
    exact download_file_skip dfs2 dir o2 _ fid fname (by rw [hpath]; exact hexists)
  refine ⟨hskip, fun q hq => ?_⟩
  rw [hskip]
  exact download_file_fs_congr true dfs dir o fs fid fname q hq

/-- Sample metadata: a parsable creation timestamp and a 5-byte size. -/
def sampleMeta : Meta := ⟨some ⟨2024, 1, 2, 3, 4, 5⟩, 5⟩

/-- An environment in which everything succeeds: metadata present, a
5-byte media stream, directory creation and remote deletion working. -/
def sampleOracle : Oracle := ⟨Except.ok sampleMeta, Except.ok 5, true, true, []⟩

/-- An environment whose media stream raises immediately (0 bytes
written before the exception). -/
def failOracle : Oracle := ⟨Except.ok sampleMeta, Except.error 0, true, true, []⟩

/-- An environment whose media stream completes having written 0 bytes. -/
def zeroOracle : Oracle := ⟨Except.ok sampleMeta, Except.ok 0, true, true, []⟩

/-- The empty local filesystem. -/
def emptyFS : FS := fun _ => none

/-- The file name `a.mp3`. -/
def c2name : Str := ['a', '.', 'm', 'p', '3']

/-- C2 witness: `C2_transfer_idempotent` applied to a concrete
successful first download followed by a second call on the same
record. -/
theorem C2_transfer_idempotent_witness :
    destBucket sampleOracle = destBucket sampleOracle ∧
    ((download_file true false ['d'] sampleOracle emptyFS ['f'] c2name).fs
        (file_path_of ['d'] sampleOracle ['f'] c2name)).isSome = true ∧
    (secondCall false false ['d'] sampleOracle sampleOracle emptyFS ['f'] c2name
        = ⟨true, true, true, false, false,
            (download_file true false ['d'] sampleOracle emptyFS ['f'] c2name).fs⟩ ∧
      (∀ q, q ≠ file_path_of ['d'] sampleOracle ['f'] c2name →
        (secondCall false false ['d'] sampleOracle sampleOracle emptyFS ['f']
            c2name).fs q = emptyFS q)) :=
  ⟨rfl, by decide,
    C2_transfer_idempotent false false ['d'] sampleOracle sampleOracle emptyFS
      ['f'] c2name rfl (by decide)⟩

set_option maxRecDepth 4000 in
/-- C2 counterexample: on the second call for a record whose file was
written by the first call, `download_file` does return through the skip
branch (`skipped = true`), but the record metadata has already been
re-fetched from the remote store (`files().get` runs before the
existence check), so the call does perform a network read, contradicting
the claimed absence of any network read. -/
theorem C2_counterexample :
    (download_file true false ['d'] sampleOracle
        (download_file true false ['d'] sampleOracle emptyFS ['f'] c2name).fs
        ['f'] c2name).skipped = true ∧
    (download_file true false ['d'] sampleOracle
        (download_file true false ['d'] sampleOracle emptyFS ['f'] c2name).fs
        ['f'] c2name).metadataFetched = true := by
  decide

/-! ### Claim C3 -/

/-- C3 (confirmed): when the stream copy completes with a zero-byte
destination file, `download_file` returns `False`, the zero-byte file is
removed, and no deletion at the source is invoked (whatever the
`delete_from_src` flag); moreover, in every run whatsoever, the remote
delete is invoked only if the written destination file was verified to
exist with size strictly greater than zero. -/
theorem C3_verification_gate (dfs : Bool) (dir : Str) (o : Oracle) (fs : FS)
    (fid fname : Str) (m : Meta)
    (hnew : fs (file_path_of dir o fid fname) = none)
    (hdir : o.ensureDirOk = true)
    (hmeta : o.metadata = Except.ok m)
    (hmedia : o.media = Except.ok 0) :
    (download_file true dfs dir o fs fid fname).ok = false ∧
    (download_file true dfs dir o fs fid fname).fs
        (file_path_of dir o fid fname) = none ∧
    (download_file true dfs dir o fs fid fname).deleteInvoked = false ∧
    (∀ (dfs' : Bool) (o' : Oracle) (fs' : FS),
      (download_file true dfs' dir o' fs' fid fname).deleteInvoked = true →
      ∃ k, 0 < k ∧ (download_file true dfs' dir o' fs' fid fname).fs
          (file_path_of dir o' fid fname) = some k) := by
  rw [download_file_zero dfs dir o fs fid fname m hnew hdir hmeta hmedia]
  refine ⟨rfl, ?_, rfl, ?_⟩
  · simp [removeFile]
  · intro dfs' o' fs' hdel
    exact download_file_delete_guard true dfs' dir o' fs' fid fname hdel

/-- C3 witness: `C3_verification_gate` on a concrete zero-byte transfer
with deletion-at-source enabled. -/
theorem C3_verification_gate_witness :
    emptyFS (file_path_of ['d'] zeroOracle ['f'] c2name) = none ∧
    zeroOracle.ensureDirOk = true ∧
    zeroOracle.metadata = Except.ok sampleMeta ∧
    zeroOracle.media = Except.ok 0 ∧
    ((download_file true true ['d'] zeroOracle emptyFS ['f'] c2name).ok = false ∧
      (download_file true true ['d'] zeroOracle emptyFS ['f'] c2name).fs
          (file_path_of ['d'] zeroOracle ['f'] c2name) = none ∧
      (download_file true true ['d'] zeroOracle emptyFS ['f'] c2name).deleteInvoked
          = false ∧
      (∀ (dfs' : Bool) (o' : Oracle) (fs' : FS),
        (download_file true dfs' ['d'] o' fs' ['f'] c2name).deleteInvoked = true →
        ∃ k, 0 < k ∧ (download_file true dfs' ['d'] o' fs' ['f'] c2name).fs
            (file_path_of ['d'] o' ['f'] c2name) = some k)) :=
  ⟨rfl, rfl, rfl, rfl,
    C3_verification_gate true ['d'] zeroOracle emptyFS ['f'] c2name sampleMeta
      rfl rfl rfl rfl⟩

/-! ### Claim C7 -/

/-- C7 (confirmed): destination directories `{bucket}_{id}` under the
download root are distinct for distinct record ids whenever the two
bucket texts have the same length — in particular when the two records
carry identical creation timestamps (identical buckets), whatever their
display names; and the directory is a pure function of the root, the
bucket and the id (determinism). -/
theorem C7_destination_collision_free (download_dir b1 b2 i1 i2 : Str)
    (hlen : b1.length = b2.length) (hne : i1 ≠ i2) :
    dirName download_dir b1 i1 ≠ dirName download_dir b2 i2 := by
  intro h
  unfold dirName at h
  have h1 := List.append_cancel_left h
  have h2 : b1 ++ '_' :: i1 = b2 ++ '_' :: i2 := by
    injection h1
  rcases List.append_inj h2 hlen with ⟨hb, hi⟩
  exact hne (by injection hi)

/-- C7 witness: `C7_destination_collision_free` on two records with the
same bucket (identical creation timestamps) and distinct ids. -/
theorem C7_destination_collision_free_witness :
    (formatBucket ⟨2024, 1, 2, 3, 4, 5⟩).length
        = (formatBucket ⟨2024, 1, 2, 3, 4, 5⟩).length ∧
    (['1'] : Str) ≠ ['2'] ∧
    dirName ['d'] (formatBucket ⟨2024, 1, 2, 3, 4, 5⟩) ['1']
      ≠ dirName ['d'] (formatBucket ⟨2024, 1, 2, 3, 4, 5⟩) ['2'] :=
  ⟨rfl, by decide,
    C7_destination_collision_free ['d'] (formatBucket ⟨2024, 1, 2, 3, 4, 5⟩)
      (formatBucket ⟨2024, 1, 2, 3, 4, 5⟩) ['1'] ['2'] rfl (by decide)⟩

/-! ### Claim C9 -/

/-- C9 (confirmed): with no authenticated service, `list_files_in_folders`
returns the empty list having queried no folder, `download_file` returns
`False` without fetching metadata, reading media, deleting at the source
or touching the local filesystem, and `delete_file_from_gdrive` returns
`False` without calling the remote API. -/
theorem C9_unauthenticated_noops
    (folders : List (Str × Except Str (List FileRec))) (dfs : Bool)
    (dir : Str) (o : Oracle) (fs : FS) (fid fname : Str) (deleteOk : Bool) :
    list_files_in_folders false folders = ([], []) ∧
    (download_file false dfs dir o fs fid fname).ok = false ∧
    (download_file false dfs dir o fs fid fname).fs = fs ∧
    (download_file false dfs dir o fs fid fname).metadataFetched = false ∧
    (download_file false dfs dir o fs fid fname).mediaRead = false ∧
    (download_file false dfs dir o fs fid fname).deleteInvoked = false ∧
    delete_file_from_gdrive false deleteOk = ⟨false, false⟩ :=
  ⟨rfl, rfl, rfl, rfl, rfl, rfl, rfl⟩

/-! ### Lemmas about `rfind` and the `pathlib` suffix -/

theorem rfindAux_ne_none {s : Str} {c : Char} (h : c ∈ s) : rfindAux s c ≠ none := by
  induction s with
  | nil => cases h
  | cons a t ih =>
    unfold rfindAux
    rcases List.mem_cons.mp h with rfl | hm
    · cases ht : rfindAux t c <;> simp [ht]
    · cases ht : rfindAux t c with
      | none => exact absurd ht (ih hm)
      | some j => simp [ht]

theorem not_mem_of_rfindAux_none {s : Str} {c : Char} (h : rfindAux s c = none) :
    c ∉ s :=
  fun hm => rfindAux_ne_none hm h

theorem rfindAux_some {s : Str} {c : Char} {i : Nat} (h : rfindAux s c = some i) :
    ∃ u v, s = u ++ c :: v ∧ u.length = i ∧ c ∉ v := by
  induction s generalizing i with
  | nil => cases h
  | cons a t ih =>
    unfold rfindAux at h
    cases ht : rfindAux t c with
    | some j =>
      rw [ht] at h
      have hji : j + 1 = i := by injection h
      rcases ih ht with ⟨u, v, hsv, hu, hv⟩
      exact ⟨a :: u, v, by simp [hsv], by simp [hu, hji], hv⟩
    | none =>
      rw [ht] at h
      by_cases hac : a = c
      · rw [if_pos hac] at h
        have h0 : (0 : Nat) = i := by injection h
        exact ⟨[], t, by simp [hac], by simp [← h0], not_mem_of_rfindAux_none ht⟩
      · rw [if_neg hac] at h
        cases h

theorem takeWhile_append_all {p : Char → Bool} {l₁ : Str} (a : Char) (l₂ : Str)
    (h1 : ∀ x ∈ l₁, p x = true) (ha : p a = false) :
    (l₁ ++ a :: l₂).takeWhile p = l₁ := by
  induction l₁ with
  | nil => simp [List.takeWhile_cons, ha]
  | cons b t ih =>
    have hb : p b = true := h1 b (List.mem_cons_self b t)
    simp [List.takeWhile_cons, hb,
      ih (fun x hx => h1 x (List.mem_cons_of_mem b hx))]

/-- The suffix rule of the amended claim, written from its words: the
lower-level extension of a name is the substring from its last `.`
(recovered here as the reversed run of non-dot characters at the end),
kept only when the name contains a dot that is neither its first nor
its last character; empty otherwise. -/
def specSuffix (nm : Str) : Str :=
  let tailPart := nm.reverse.takeWhile (fun c => c != '.')
  if '.' ∈ nm ∧ tailPart ≠ [] ∧ tailPart.length + 1 ≠ nm.length then
    '.' :: tailPart.reverse
  else []

theorem suffixOfName_eq_specSuffix (nm : Str) : suffixOfName nm = specSuffix nm := by
  unfold suffixOfName specSuffix rfindI
  cases hf : rfindAux nm '.' with
  | none =>
    have hnm : '.' ∉ nm := not_mem_of_rfindAux_none hf
    dsimp only
    rw [if_neg (by rintro ⟨h1, _⟩; omega), if_neg (by rintro ⟨h1, _⟩; exact hnm h1)]
  | some i =>
    obtain ⟨u, v, rfl, hu, hv⟩ := rfindAux_some hf
    subst hu
    dsimp only
    have hrev : (u ++ '.' :: v).reverse = v.reverse ++ '.' :: u.reverse := by
      rw [List.reverse_append, List.reverse_cons, List.append_assoc]
      simp
    have htw : ((u ++ '.' :: v).reverse).takeWhile (fun c => c != '.')
        = v.reverse := by
      rw [hrev]
      apply takeWhile_append_all
      · intro x hx
        have hxv : x ∈ v := List.mem_reverse.mp hx
        have hxd : x ≠ '.' := fun hxc => hv (hxc ▸ hxv)
        simp [hxd]
      · simp
    rw [htw]
    have hlen : (u ++ '.' :: v).length = u.length + 1 + v.length := by
      simp [List.length_append]
      omega
    by_cases hu0 : u = []
    · rw [if_neg, if_neg]
      · rintro ⟨_, _, h3⟩
        rw [List.length_reverse, hlen, hu0] at h3
        simp at h3
        omega
      · rintro ⟨h1, _⟩
        rw [hu0] at h1
        simp at h1
    · by_cases hv0 : v = []
      · rw [if_neg, if_neg]
        · rintro ⟨_, h2, _⟩
          rw [hv0] at h2
          simp at h2
        · rintro ⟨_, h2⟩
          rw [hlen, hv0] at h2
          simp at h2
      · have hu1 : 0 < u.length := List.length_pos.mpr hu0
        have hv1 : 0 < v.length := List.length_pos.mpr hv0
        rw [if_pos, if_pos]
        · rw [List.reverse_reverse]
          rw [show ((u.length : Int)).toNat = u.length by omega]
          rw [List.drop_left]
        · refine ⟨List.mem_append.mpr (Or.inr (List.mem_cons_self _ _)), ?_, ?_⟩
          · simp [hv0]
          · rw [List.length_reverse, hlen]
            omega
        · constructor
          · omega
          · rw [hlen]
            push_cast
            omega

/-! ### Claim C5 -/

/-- The membership rule of the amended claim for one record: the lower-cased
`specSuffix` of the final slash-component of the record name (missing
names behaving as the empty name) is in the allow-set. -/
def specAudioPred (allowed_extensions : List Str) (f : FileRec) : Bool :=
  allowed_extensions.contains (lowerStr (specSuffix (posixName (f.name.getD []))))

/-- A record named `a.MP3`. -/
def recAup : FileRec := ⟨['1'], some ['a', '.', 'M', 'P', '3']⟩

/-- A record named `b.txt`. -/
def recBtxt : FileRec := ⟨['2'], some ['b', '.', 't', 'x', 't']⟩

/-- A record named `c.m4a`. -/
def recCm4a : FileRec := ⟨['3'], some ['c', '.', 'm', '4', 'a']⟩

/-- The extension `.mp3`. -/
def extMp3 : Str := ['.', 'm', 'p', '3']

/-- The extension `.m4a`. -/
def extM4a : Str := ['.', 'm', '4', 'a']

/-- C5 (amended): `filter_audio_files` keeps exactly the records whose
lower-cased `pathlib` suffix — the substring of the final
slash-component of the name from its last `.`, provided that dot is
neither the first nor the last character of the component, otherwise empty
(in particular for missing names) — is in the allow-set; it preserves
the input order (the output is a sublist of the input), and on the
example of the claim, `[a.MP3, b.txt, c.m4a]` against `{.mp3, .m4a}`, it
returns the records of `a.MP3` and `c.m4a` in order.  The original
claimed rule (substring from the last `.`, empty if no `.`) differs
from the code on names whose only dot is leading or trailing: see the
counterexample. -/
theorem C5_filter_characterization :
    (∀ (files : List FileRec) (allowed_extensions : List Str),
      filter_audio_files files allowed_extensions
        = files.filter (specAudioPred allowed_extensions)) ∧
    (∀ (files : List FileRec) (allowed_extensions : List Str),
      List.Sublist (filter_audio_files files allowed_extensions) files) ∧
    filter_audio_files [recAup, recBtxt, recCm4a] [extMp3, extM4a]
      = [recAup, recCm4a] := by
  refine ⟨fun files allowed_extensions => ?_, fun files allowed_extensions => ?_,
    by decide⟩
  · unfold filter_audio_files specAudioPred pathSuffix
    simp only [suffixOfName_eq_specSuffix]
  · exact List.filter_sublist files

/-- The extension rule stated by the claim: the substring of the whole record
name from its last `.` (inclusive), the empty string when there is no
dot. -/
def claimSuffix (nm : Str) : Str :=
  match rfindAux nm '.' with
  | some i => nm.drop i
  | none => []

/-- The filter the original claim describes, with the claimed
extension rule in place of the `pathlib` one. -/
def claimFilter (files : List FileRec) (allowed_extensions : List Str) :
    List FileRec :=
  files.filter
    (fun f => allowed_extensions.contains (lowerStr (claimSuffix (f.name.getD []))))

/-- A record whose name is exactly `.mp3`. -/
def recDot : FileRec := ⟨['7'], some ['.', 'm', 'p', '3']⟩

/-- C5 counterexample: for the record named `.mp3` and the allow-set
`{.mp3}`, the claimed rule (substring from the last `.`, i.e. `.mp3`)
would keep the record, but the `pathlib` suffix of `.mp3` is empty (a
dot in first position is not an extension separator), so
`filter_audio_files` excludes it. -/
theorem C5_counterexample :
    filter_audio_files [recDot] [extMp3] = [] ∧
    claimFilter [recDot] [extMp3] = [recDot] := by
  decide

/-! ### Claim C6 -/

/-- The records the query outcome of one folder contributes to the listing:
its files on success, none on failure. -/
def okFiles (r : Except Str (List FileRec)) : List FileRec :=
  match r with
  | .ok files => files
  | .error _ => []

theorem foldl_listStep (folders : List (Str × Except Str (List FileRec)))
    (acc : List FileRec × List Str) :
    folders.foldl listStep acc
      = (acc.1 ++ (folders.map (fun fr => okFiles fr.2)).flatten,
          acc.2 ++ folders.map (fun fr => fr.1)) := by
  induction folders generalizing acc with
  | nil => simp
  | cons fr rest ih =>
    rw [List.foldl_cons, ih]
    rcases fr with ⟨fid, r⟩
    cases r <;> simp [listStep, okFiles, List.append_assoc]

theorem list_files_flatten (folders : List (Str × Except Str (List FileRec))) :
    list_files_in_folders true folders
      = ((folders.map (fun fr => okFiles fr.2)).flatten,
          folders.map (fun fr => fr.1)) := by
  unfold list_files_in_folders
  rw [if_neg (by simp), foldl_listStep]
  simp

/-- C6 (confirmed): with an authenticated service, the listing is the
concatenation of the per-folder query results in folder order
(within-folder response order preserved by concatenation); a folder
whose query fails contributes zero records while every folder — before
and after it — is still queried; records are not deduplicated (the same
record reachable from two folders appears twice). -/
theorem C6_listing_aggregation :
    (∀ folders, (list_files_in_folders true folders).1
        = (folders.map (fun fr => okFiles fr.2)).flatten) ∧
    (∀ (pre post : List (Str × Except Str (List FileRec))) (fid e : Str),
      (list_files_in_folders true (pre ++ (fid, Except.error e) :: post)).1
        = (list_files_in_folders true pre).1
            ++ (list_files_in_folders true post).1) ∧
    (∀ folders, (list_files_in_folders true folders).2
        = folders.map (fun fr => fr.1)) ∧
    (∀ (f1 f2 : Str) (r : FileRec),
      (list_files_in_folders true [(f1, Except.ok [r]), (f2, Except.ok [r])]).1
        = [r, r]) := by
  refine ⟨fun folders => by rw [list_files_flatten],
    fun pre post fid e => ?_, fun folders => by rw [list_files_flatten],
    fun f1 f2 r => by rw [list_files_flatten]; simp [okFiles]⟩
  rw [list_files_flatten, list_files_flatten, list_files_flatten]
  simp [okFiles]

/-! ### Claim C4 -/

/-- The per-record outcome trace of the batch loop: the boolean result
of each `download_file` call, in listing order, threading the
filesystem from one transfer to the next. -/
def dlOutcomes (service delete_from_src : Bool) (download_dir : Str)
    (oracles : Str → Oracle) : List FileRec → FS → List Bool
  | [], _ => []
  | f :: rest, fs =>
    let r := download_file service delete_from_src download_dir
      (oracles f.id) fs f.id (f.name.getD [])
    r.ok :: dlOutcomes service delete_from_src download_dir oracles rest r.fs

theorem dlLoop_eq_count (service dfs : Bool) (dir : Str)
    (oracles : Str → Oracle) (recs : List FileRec) (succ0 : Nat) (fs : FS) :
    (dlLoop service dfs dir oracles recs succ0 fs).1
      = succ0 + (dlOutcomes service dfs dir oracles recs fs).count true := by
  induction recs generalizing succ0 fs with
  | nil => simp [dlLoop, dlOutcomes]
  | cons f rest ih =>
    simp only [dlLoop, dlOutcomes]
    rw [ih]
    rw [List.count_cons]
    cases (download_file service dfs dir (oracles f.id) fs f.id
        (f.name.getD [])).ok with
    | false => simp
    | true => simp; omega

theorem dlOutcomes_length (service dfs : Bool) (dir : Str)
    (oracles : Str → Oracle) (recs : List FileRec) (fs : FS) :
    (dlOutcomes service dfs dir oracles recs fs).length = recs.length := by
  induction recs generalizing fs with
  | nil => rfl
  | cons f rest ih => simp [dlOutcomes, ih]

/-- A record named `a.mp3` with id `1`. -/
def exRec1 : FileRec := ⟨['1'], some ['a', '.', 'm', 'p', '3']⟩

/-- A record named `b.mp3` with id `2`. -/
def exRec2 : FileRec := ⟨['2'], some ['b', '.', 'm', 'p', '3']⟩

/-- A record named `c.mp3` with id `3`. -/
def exRec3 : FileRec := ⟨['3'], some ['c', '.', 'm', 'p', '3']⟩

/-- A single configured folder whose query returns the three records. -/
def exFolders : List (Str × Except Str (List FileRec)) :=
  [(['r'], Except.ok [exRec1, exRec2, exRec3])]

/-- An environment in which the transfer of record `2` raises during the
stream copy and every other transfer succeeds. -/
def exOracles : Str → Oracle :=
  fun i => if i = ['2'] then failOracle else sampleOracle

/-- C4 (confirmed): the batch loop visits every filtered record in
listing order (the outcome trace has one entry per record), its success
count is the number of `True` transfer results (`Success` and `Skipped`
both return `True`, `Failed` returns `False` and never stops the loop —
exceptions are caught inside `download_file` and mapped to `False`);
concretely, with 3 records where the transfer of record 2 raises, the
batch returns successCount 2 and totalCount 3. -/
theorem C4_batch_containment :
    (∀ (service dfs : Bool) (dir : Str) (oracles : Str → Oracle)
        (recs : List FileRec) (succ0 : Nat) (fs : FS),
      (dlLoop service dfs dir oracles recs succ0 fs).1
        = succ0 + (dlOutcomes service dfs dir oracles recs fs).count true) ∧
    (∀ (service dfs : Bool) (dir : Str) (oracles : Str → Oracle)
        (recs : List FileRec) (fs : FS),
      (dlOutcomes service dfs dir oracles recs fs).length = recs.length) ∧
    (download_all_audio_files true false ['d'] [extMp3] exFolders exOracles
        emptyFS).1 = 2 ∧
    (download_all_audio_files true false ['d'] [extMp3] exFolders exOracles
        emptyFS).2.1 = 3 :=
  ⟨dlLoop_eq_count, dlOutcomes_length, by decide, by decide⟩

/-! ### Claim C10 -/

theorem download_all_spec (service dfs : Bool) (dir : Str)
    (allowed : List Str) (folders : List (Str × Except Str (List FileRec)))
    (oracles : Str → Oracle) (fs : FS) :
    (download_all_audio_files service dfs dir allowed folders oracles fs).1
      ≤ (download_all_audio_files service dfs dir allowed folders oracles fs).2.1 ∧
    (download_all_audio_files service dfs dir allowed folders oracles fs).2.1
      = (filter_audio_files (list_files_in_folders service folders).1
          allowed).length := by
  unfold download_all_audio_files
  dsimp only
  split
  · next h =>
    have h0 : (list_files_in_folders service folders).1 = [] :=
      List.isEmpty_iff.mp h
    refine ⟨le_refl 0, ?_⟩
    rw [h0]
    rfl
  · split
    · next h2 =>
      have h0 : filter_audio_files (list_files_in_folders service folders).1
          allowed = [] := List.isEmpty_iff.mp h2
      refine ⟨le_refl 0, ?_⟩
      rw [h0]
      rfl
    · refine ⟨?_, rfl⟩
      dsimp only
      rw [dlLoop_eq_count]
      have hc := List.count_le_length true
        (dlOutcomes service dfs dir oracles
          (filter_audio_files (list_files_in_folders service folders).1 allowed) fs)
      rw [dlOutcomes_length] at hc
      omega

/-- C10 (confirmed): every run of `download_all_audio_files` returns a
pair with `0 ≤ successful ≤ total`, and `total` equals the number of
records that pass the extension filter over the listing (in particular
`(0, 0)` when the listing or the filtered set is empty, since the
filter of an empty listing is empty). -/
theorem C10_batch_result_invariant (service dfs : Bool) (dir : Str)
    (allowed : List Str) (folders : List (Str × Except Str (List FileRec)))
    (oracles : Str → Oracle) (fs : FS) :
    (download_all_audio_files service dfs dir allowed folders oracles fs).1
      ≤ (download_all_audio_files service dfs dir allowed folders oracles fs).2.1 ∧
    (download_all_audio_files service dfs dir allowed folders oracles fs).2.1
      = (filter_audio_files (list_files_in_folders service folders).1
          allowed).length :=
  download_all_spec service dfs dir allowed folders oracles fs

/-! ### Claim C8 -/

/-- A single configured folder whose query returns no records. -/
def emptyFolders : List (Str × Except Str (List FileRec)) :=
  [(['r'], Except.ok [])]

/-- C8 (amended): for a run that reaches the download phase
(construction and authentication succeeded), the process exit code is 0
if and only if `successCount = totalCount` AND the optional `--cleanup`
step does not raise; the `totalCount = 0` case counts as success (when
cleanup does not interfere).  The unqualified iff of the original claim
iff fails when `--cleanup` is requested and the credential-file unlink
raises after a fully successful batch: see the counterexample. -/
theorem C8_exit_code (args_cleanup cleanupOk dfs : Bool) (dir : Str)
    (allowed : List Str) (folders : List (Str × Except Str (List FileRec)))
    (oracles : Str → Oracle) (fs : FS) :
    (mainResult true true args_cleanup cleanupOk dfs dir allowed folders
          oracles fs = 0
      ↔ ((download_all_audio_files true dfs dir allowed folders oracles fs).1
            = (download_all_audio_files true dfs dir allowed folders oracles
                fs).2.1
          ∧ (args_cleanup && !cleanupOk) = false)) ∧
    ((download_all_audio_files true dfs dir allowed folders oracles fs).2.1 = 0
        ∧ (args_cleanup && !cleanupOk) = false
      → mainResult true true args_cleanup cleanupOk dfs dir allowed folders
          oracles fs = 0) := by
  have hle := (download_all_spec true dfs dir allowed folders oracles fs).1
  unfold mainResult
  rw [if_neg (by simp), if_neg (by simp)]
  dsimp only
  by_cases hcl : (args_cleanup && !cleanupOk) = true
  · rw [if_pos hcl]
    constructor
    · constructor
      · intro h
        cases h
      · rintro ⟨_, h2⟩
        rw [hcl] at h2
        cases h2
    · rintro ⟨_, h2⟩
      rw [hcl] at h2
      cases h2
  · have hcl2 : (args_cleanup && !cleanupOk) = false := by
      revert hcl
      cases args_cleanup <;> cases cleanupOk <;> simp
    rw [if_neg hcl]
    constructor
    · by_cases heq : (download_all_audio_files true dfs dir allowed folders
          oracles fs).1
          = (download_all_audio_files true dfs dir allowed folders oracles
              fs).2.1
      · rw [if_pos heq]
        simp [heq, hcl2]
      · rw [if_neg heq]
        simp [heq]
    · rintro ⟨h0, _⟩
      rw [if_pos (by omega)]

/-- C8 witness: `C8_exit_code` on a concrete run — empty listing, no
cleanup requested — where the exit code is 0 and
`successCount = totalCount = 0`. -/
theorem C8_exit_code_witness :
    (mainResult true true false true false ['d'] [extMp3] emptyFolders
          exOracles emptyFS = 0
      ↔ ((download_all_audio_files true false ['d'] [extMp3] emptyFolders
            exOracles emptyFS).1
            = (download_all_audio_files true false ['d'] [extMp3] emptyFolders
                exOracles emptyFS).2.1
          ∧ (false && !true) = false)) ∧
    ((download_all_audio_files true false ['d'] [extMp3] emptyFolders exOracles
          emptyFS).2.1 = 0
        ∧ (false && !true) = false
      → mainResult true true false true false ['d'] [extMp3] emptyFolders
          exOracles emptyFS = 0) :=
  C8_exit_code false true false ['d'] [extMp3] emptyFolders exOracles emptyFS

/-- C8 counterexample: a run that reaches the download phase and ends
with `successCount = totalCount` (here `0 = 0`) still exits 1 when
`--cleanup` is requested and the credential-file removal raises — the
exception is caught by the outer handler of `main`, which returns 1 —
so exit code 0 is not equivalent to `successCount = totalCount`. -/
theorem C8_counterexample :
    (download_all_audio_files true false ['d'] [extMp3] emptyFolders exOracles
        emptyFS).1
      = (download_all_audio_files true false ['d'] [extMp3] emptyFolders
          exOracles emptyFS).2.1 ∧
    mainResult true true true false false ['d'] [extMp3] emptyFolders exOracles
        emptyFS = 1 := by
  decide

end DlSrcGdrive
